import Mathlib

/-!
# Island simulation — verification of the core engine

Shallow embedding of the agent/needs/inventory/skills/fishing/claim-registry
core of the `islandsim` repository, together with proofs about the embedded
operations.

Modelling conventions:
* JavaScript numbers are modelled as exact rationals (`ℚ`); integer counts as `ℕ`.
* A JavaScript `Map` is modelled as an insertion-ordered association list
  (`List (String × α)`), with `mapGet`/`mapSet`/`mapDelete` mirroring
  `Map.get`/`Map.set`/`Map.delete` (set on an existing key updates in place,
  otherwise it appends; delete removes the entry of the key).
* `Math.random()` (the unseeded ambient generator) is modelled as an oracle
  stream `mrand : ℕ → ℚ` together with a running index: each call reads
  `mrand i` and advances the index.  The seeded generator of `config.js`
  (`seededRandom`) is modelled separately as an explicit LCG on its state.
* `Date.now()` is passed in explicitly as a `now : ℚ` parameter.
* In-place mutation of a JS object becomes explicit state passing: an embedded
  operation returns the updated record next to the original return value.
-/

namespace IslandSim

/-! ## JavaScript `Map` as an insertion-ordered association list -/

def mapGet {α : Type} : List (String × α) → String → Option α
  | [], _ => none
  | (k, v) :: rest, key => if k = key then some v else mapGet rest key

def mapSet {α : Type} : List (String × α) → String → α → List (String × α)
  | [], key, v => [(key, v)]
  | (k, w) :: rest, key, v =>
      if k = key then (key, v) :: rest else (k, w) :: mapSet rest key v

def mapDelete {α : Type} : List (String × α) → String → List (String × α)
  | [], _ => []
  | (k, w) :: rest, key => if k = key then rest else (k, w) :: mapDelete rest key

/-! ## `config.js`: the seeded generator

`let _seed = CONFIG.seed;`
`export function seededRandom() { _seed = (_seed * 9301 + 49297) % 233280; return _seed / 233280; }`
-/

def CONFIG_seed : ℕ := 12345

def seededRandomStep (s : ℕ) : ℕ := (s * 9301 + 49297) % 233280

def seededRandomValue (s : ℕ) : ℚ := (seededRandomStep s : ℚ) / 233280

/-! ## `systems/resources.js`: resource table (stack sizes and spoil times only)

Fields of `RESOURCES` not consulted by the inventory operations (nutrition,
gather times, sources, …) are omitted.
-/

structure ResourceDef where
  stackSize : ℕ
  spoilTime : Option ℚ
  deriving DecidableEq, Repr

/-- The `RESOURCES` table, keyed by resource id.  The source looks entries up
as `RESOURCES[resourceId.toUpperCase()] || RESOURCES[resourceId]`; every table
key is exactly the upper-cased id, so this is a plain lookup by id. -/
def RESOURCES : String → Option ResourceDef
  | "coconut" => some ⟨6, none⟩
  | "mullet" => some ⟨4, some 120⟩
  | "parrotfish" => some ⟨3, some 100⟩
  | "grouper" => some ⟨2, some 80⟩
  | "wood" => some ⟨10, none⟩
  | "stone" => some ⟨8, none⟩
  | "vine" => some ⟨8, none⟩
  | "leaves" => some ⟨12, none⟩
  | "shark_meat" => some ⟨8, some 60⟩
  | "shark_teeth" => some ⟨20, none⟩
  | "shark_skin" => some ⟨4, none⟩
  | "squid_meat" => some ⟨20, some 40⟩
  | "squid_beak" => some ⟨1, none⟩
  | "squid_tentacle" => some ⟨8, none⟩
  | "squid_ink" => some ⟨2, none⟩
  | _ => none

/-! ## Inventory model -/

/-- One tracked item inside a slot (used for spoilage bookkeeping). -/
structure Item where
  spawnTime : ℚ
  spoilTime : ℚ
  isCooked : Bool
  deriving DecidableEq, Repr

/-- A slot of the inventory: `resourceId -> { count, items[] }`. -/
structure Slot where
  count : ℕ
  items : List Item
  deriving DecidableEq, Repr

/-- `createInventory`'s record, restricted to the fields the claims exercise
(`slots` and `maxSlots`; the tool map and equipped tool are untouched by the
operations modelled here). -/
structure Inventory where
  slots : List (String × Slot)
  maxSlots : ℕ
  deriving DecidableEq, Repr

/-- `getInventoryCount(inventory, resourceId)`:
`inventory.slots.get(resourceId)?.count || 0`. -/
def getInventoryCount (inventory : Inventory) (resourceId : String) : ℕ :=
  ((mapGet inventory.slots resourceId).map Slot.count).getD 0

/-- `addToInventory(inventory, resourceId, count, itemData)`.  Mutation of the
slot map becomes a returned inventory next to the boolean result.  `now`
stands for `Date.now()` and `itemIsCooked` for `itemData.isCooked`. -/
def addToInventory (inventory : Inventory) (resourceId : String) (count : ℕ)
    (now : ℚ) (itemIsCooked : Bool) : Bool × Inventory :=
  match RESOURCES resourceId with
  | none => (false, inventory)
  | some resource =>
    let existing := (mapGet inventory.slots resourceId).getD ⟨0, []⟩
    let stackSize := resource.stackSize
    if existing.count + count > stackSize ∧
        inventory.slots.length ≥ inventory.maxSlots ∧ existing.count = 0 then
      (false, inventory)
    else
      let newCount := min stackSize (existing.count + count)
      let newItems :=
        match resource.spoilTime with
        | some st => existing.items ++ List.replicate count ⟨now, st * 1000, itemIsCooked⟩
        | none => existing.items
      (true, { inventory with slots := mapSet inventory.slots resourceId ⟨newCount, newItems⟩ })

/-- The value `removeFromInventory` hands back: the tracked items that were
removed when any were recorded, otherwise the `{ count }` marker object. -/
inductive RemoveRet where
  | removedItems (items : List Item)
  | countOnly (count : ℕ)
  deriving DecidableEq, Repr

/-- `removeFromInventory(inventory, resourceId, count)`; `none` models the
`null` return on a missing slot or insufficient count. -/
def removeFromInventory (inventory : Inventory) (resourceId : String)
    (count : ℕ) : Option RemoveRet × Inventory :=
  match mapGet inventory.slots resourceId with
  | none => (none, inventory)
  | some existing =>
    if existing.count < count then (none, inventory)
    else
      let newCount := existing.count - count
      let removed := existing.items.take count
      let remaining := existing.items.drop count
      let slots :=
        if newCount = 0 then mapDelete inventory.slots resourceId
        else mapSet inventory.slots resourceId ⟨newCount, remaining⟩
      (some (if removed.length > 0 then .removedItems removed else .countOnly count),
       { inventory with slots := slots })

/-! ## Crafting -/

/-- The recipe lookup performed by `canCraft`/`consumeCraftingResources`:
`TOOLS[recipeId.toUpperCase()]?.recipe || STRUCTURES[recipeId.toUpperCase()]?.recipe`,
with `Object.entries` order preserved. -/
def craftingRecipe : String → Option (List (String × ℕ))
  | "fishing_spear" => some [("wood", 2), ("stone", 1)]
  | "gathering_stick" => some [("wood", 2), ("vine", 1)]
  | "stone_axe" => some [("wood", 2), ("stone", 2), ("vine", 1)]
  | "shark_spear" => some [("wood", 3), ("shark_teeth", 5), ("vine", 2)]
  | "fire" => some [("wood", 3), ("stone", 2)]
  | "shelter" => some [("wood", 8), ("vine", 4), ("leaves", 6)]
  | "boat" => some [("wood", 12), ("vine", 6), ("leaves", 4)]
  | _ => none

/-- `canCraft(inventory, recipeId)`. -/
def canCraft (inventory : Inventory) (recipeId : String) : Bool :=
  match craftingRecipe recipeId with
  | none => false
  | some recipe => recipe.all fun p => p.2 ≤ getInventoryCount inventory p.1

/-- `consumeCraftingResources(inventory, recipeId)`: removes every recipe
entry without checking the individual `removeFromInventory` results, then
returns `true`. -/
def consumeCraftingResources (inventory : Inventory) (recipeId : String) :
    Bool × Inventory :=
  match craftingRecipe recipeId with
  | none => (false, inventory)
  | some recipe =>
      (true, recipe.foldl (fun acc p => (removeFromInventory acc p.1 p.2).2) inventory)

/-- `hutAsInventory()` (`systems/resources.js`): the "minimal adapter so we
can reuse crafting helpers on hut storage".  `hut.storage` itself is a plain
object mapping resource ids to numbers; the adapter builds a **fresh** slot
map (new slot objects holding copies of the numbers) with `maxSlots: 16` on
every call, so mutating the adapter never writes back to `hut.storage`. -/
def hutAsInventory (storage : List (String × ℕ)) : Inventory :=
  ⟨storage.map fun p => (p.1, ⟨p.2, []⟩), 16⟩

/-- The spear-crafting completion step of `updateCrafting`
(`systems/resources.js`), restricted to its effect on `hut.storage`: the
`canCraft` guard and `consumeCraftingResources` are each applied to a fresh
`hutAsInventory()` adapter — so the recipe consumption lands on a throwaway
copy (returned here in the middle component, exactly as the program computes
and then drops it) — and the only persistent write is
`hut.storage.fishing_spear = (hut.storage.fishing_spear || 0) + 1`. -/
def updateCraftingSpear (storage : List (String × ℕ)) :
    Bool × Inventory × List (String × ℕ) :=
  if ¬ canCraft (hutAsInventory storage) "fishing_spear" then
    (false, hutAsInventory storage, storage)
  else
    let discarded := (consumeCraftingResources (hutAsInventory storage) "fishing_spear").2
    (true, discarded,
     mapSet storage "fishing_spear" ((mapGet storage "fishing_spear").getD 0 + 1))

/-! ## Skills (`SKILLS & EXPERIENCE SYSTEM`) -/

/-- Per-skill progression state: `{ level, xp }`. -/
structure SkillState where
  level : ℕ
  xp : ℚ
  deriving DecidableEq, Repr

/-- `createAgentSkills()`'s record: the five fixed skills. -/
structure Skills where
  gathering : SkillState
  fishing : SkillState
  crafting : SkillState
  combat : SkillState
  cooking : SkillState
  deriving DecidableEq, Repr

inductive SkillId where
  | gathering | fishing | crafting | combat | cooking
  deriving DecidableEq, Repr

def getSkill (skills : Skills) : SkillId → SkillState
  | .gathering => skills.gathering
  | .fishing => skills.fishing
  | .crafting => skills.crafting
  | .combat => skills.combat
  | .cooking => skills.cooking

def setSkill (skills : Skills) (skillId : SkillId) (s : SkillState) : Skills :=
  match skillId with
  | .gathering => { skills with gathering := s }
  | .fishing => { skills with fishing := s }
  | .crafting => { skills with crafting := s }
  | .combat => { skills with combat := s }
  | .cooking => { skills with cooking := s }

/-- `createAgentSkills()`. -/
def createAgentSkills : Skills :=
  ⟨⟨0, 0⟩, ⟨0, 0⟩, ⟨0, 0⟩, ⟨0, 0⟩, ⟨0, 0⟩⟩

/-- `XP_PER_LEVEL` and `XP_SCALING`; every entry of `SKILLS` has
`maxLevel: 100` (and `SKILLS[id]?.maxLevel || 100` defaults to 100). -/
def XP_PER_LEVEL : ℚ := 100

def XP_SCALING : ℚ := 1.15

def SKILL_MAX_LEVEL : ℕ := 100

/-- `getXPForLevel(level) = Math.floor(XP_PER_LEVEL * Math.pow(XP_SCALING, level))`. -/
def getXPForLevel (level : ℕ) : ℚ :=
  ((Int.floor (XP_PER_LEVEL * XP_SCALING ^ level) : ℤ) : ℚ)

/-- The `while (skill.xp >= xpNeeded && skill.level < maxLevel)` loop of
`addSkillXP`.  `xpNeeded` is computed once, before the loop, and not
recomputed on level-up — exactly as in the source. -/
def levelUpLoop (xpNeeded xp : ℚ) (level maxLevel : ℕ) (leveled : Bool) :
    ℚ × ℕ × Bool :=
  if xpNeeded ≤ xp ∧ level < maxLevel then
    levelUpLoop xpNeeded (xp - xpNeeded) (level + 1) maxLevel true
  else (xp, level, leveled)
termination_by maxLevel - level
decreasing_by omega

/-- `addSkillXP(skills, skillId, amount, apprenticeshipBonus)`.  The dynamic
`if (!skill)` guard cannot fire for the five fixed skill ids and is not
representable over the `SkillId` enumeration. -/
def addSkillXP (skills : Skills) (skillId : SkillId) (amount bonus : ℚ) :
    Skills × Bool × ℕ :=
  let skill := getSkill skills skillId
  let maxLevel := SKILL_MAX_LEVEL
  if skill.level ≥ maxLevel then (skills, false, skill.level)
  else
    let xp := skill.xp + amount * bonus
    let xpNeeded := getXPForLevel skill.level
    let r := levelUpLoop xpNeeded xp skill.level maxLevel false
    (setSkill skills skillId ⟨r.2.1, r.1⟩, r.2.2, r.2.1)

/-! ## Needs & lifecycle (`NEEDS SYSTEM`) -/

inductive DeathCause where
  | starvation | exhaustion | drowning | sickness | oldAge
  | combat | sharkAttack | squidAttack | childbirth
  deriving DecidableEq, Repr

/-- An entry of `LIFE_STAGES`. -/
structure LifeStage where
  name : String
  minAge : ℚ
  maxAge : ℚ
  canAct : Bool
  canReproduce : Bool
  efficiencyMult : ℚ
  deriving DecidableEq, Repr

def LIFE_STAGES_BABY : LifeStage := ⟨"baby", 0, 2, false, false, 0⟩
def LIFE_STAGES_CHILD : LifeStage := ⟨"child", 2, 12, true, false, 0.5⟩
def LIFE_STAGES_ADULT : LifeStage := ⟨"adult", 12, 50, true, true, 1.0⟩
def LIFE_STAGES_ELDER : LifeStage := ⟨"elder", 50, 999, true, false, 0.6⟩

/-- `getLifeStage(age)`. -/
def getLifeStage (age : ℚ) : LifeStage :=
  if age < LIFE_STAGES_BABY.maxAge then LIFE_STAGES_BABY
  else if age < LIFE_STAGES_CHILD.maxAge then LIFE_STAGES_CHILD
  else if age < LIFE_STAGES_ADULT.maxAge then LIFE_STAGES_ADULT
  else LIFE_STAGES_ELDER

/-- `NEEDS_CONFIG` (the constants `updateNeeds` reads). -/
structure NeedsConfig where
  hungerDecayRate : ℚ
  hungerMovingMult : ℚ
  energyDecayRate : ℚ
  energyRestoreRate : ℚ
  energyRestoreShelterMult : ℚ
  energyCriticalThreshold : ℚ
  healthDecayBase : ℚ
  healthRecoverRate : ℚ
  healthSicknessDecay : ℚ
  socialDecayRate : ℚ
  socialRecoverRate : ℚ
  reproductionDriveRate : ℚ
  ageYearsPerSecond : ℚ
  maxNaturalAge : ℚ
  sicknessSpreadChance : ℚ
  sicknessDuration : ℚ
  exhaustionDeathTime : ℚ
  drownEnergyDrain : ℚ
  deriving Repr

def NEEDS_CONFIG : NeedsConfig where
  hungerDecayRate := 0.003
  hungerMovingMult := 1.3
  energyDecayRate := 0.002
  energyRestoreRate := 0.01
  energyRestoreShelterMult := 2.0
  energyCriticalThreshold := 0.1
  healthDecayBase := 0.0005
  healthRecoverRate := 0.002
  healthSicknessDecay := 0.005
  socialDecayRate := 0.001
  socialRecoverRate := 0.004
  reproductionDriveRate := 0.0008
  ageYearsPerSecond := 0.02
  maxNaturalAge := 95
  sicknessSpreadChance := 0.1
  sicknessDuration := 60
  exhaustionDeathTime := 10
  drownEnergyDrain := 0.1

/-- The per-agent needs record (the fields `updateNeeds` reads or writes;
`parentIds`/`childIds` are never touched by it and are omitted). -/
structure Needs where
  hunger : ℚ
  energy : ℚ
  health : ℚ
  social : ℚ
  reproductionDrive : ℚ
  age : ℚ
  lifeStage : LifeStage
  isSick : Bool
  sicknessTimer : ℚ
  exhaustionTimer : ℚ
  isResting : Bool
  inShelter : Bool
  inWater : Bool
  inDeepWater : Bool
  deathCause : Option DeathCause
  alive : Bool
  isPregnant : Bool
  pregnancyTimer : ℚ
  pregnancyDuration : ℚ
  deriving DecidableEq, Repr

/-- The `context` argument of `updateNeeds`. -/
structure Ctx where
  isMoving : Bool
  isResting : Bool
  inShelter : Bool
  inWater : Bool
  inDeepWater : Bool
  nearbyAgentCount : ℕ
  nearSickAgent : Bool
  deriving DecidableEq, Repr

/-- An entry of the `events` array collected by `updateNeeds`. -/
inductive Event where
  | death (cause : DeathCause)
  | forcedRest
  | recovered
  | gotSick
  | giveBirth
  deriving DecidableEq, Repr

/-- The `{ alive, deathCause, events }` object returned by `updateNeeds`. -/
structure UpdateResult where
  alive : Bool
  deathCause : Option DeathCause
  events : List Event
  deriving DecidableEq, Repr

/-- A finished (dead) result: updated needs, return object, next `Math.random` index. -/
abbrev DeadRes := Needs × UpdateResult × ℕ

/-- In-flight state between the sections of `updateNeeds`: current needs,
events so far, next `Math.random` index. -/
abbrev NeedsSt := Needs × List Event × ℕ

/-- The `// Update state` block: `needs.isResting = isResting;` … -/
def applyCtxFlags (n : Needs) (ctx : Ctx) : Needs :=
  { n with isResting := ctx.isResting, inShelter := ctx.inShelter,
           inWater := ctx.inWater, inDeepWater := ctx.inDeepWater }

/-- `=== AGING ===`: age increment, life-stage refresh, and the probabilistic
old-age death (`Math.random() < deathChance`). -/
def stageAging (delta : ℚ) (mrand : ℕ → ℚ) : NeedsSt → Except DeadRes NeedsSt :=
  fun (n0, ev, i) =>
    let n1 := { n0 with age := n0.age + NEEDS_CONFIG.ageYearsPerSecond * delta }
    let n := { n1 with lifeStage := getLifeStage n1.age }
    if n.age > NEEDS_CONFIG.maxNaturalAge then
      let deathChance := (n.age - NEEDS_CONFIG.maxNaturalAge) * 0.01 * delta
      if mrand i < deathChance then
        let n := { n with alive := false, deathCause := some .oldAge }
        .error (n, ⟨false, some .oldAge, ev ++ [.death .oldAge]⟩, i + 1)
      else .ok (n, ev, i + 1)
    else .ok (n, ev, i)

/-- `=== HUNGER ===`: scaled decay, clamped at 0, starvation death at `≤ 0`. -/
def stageHunger (delta : ℚ) (ctx : Ctx) : NeedsSt → Except DeadRes NeedsSt :=
  fun (n0, ev, i) =>
    let d0 := NEEDS_CONFIG.hungerDecayRate * delta
    let d1 := if ctx.isMoving then d0 * NEEDS_CONFIG.hungerMovingMult else d0
    let d := if n0.isSick then d1 * 2 else d1
    let n := { n0 with hunger := max 0 (n0.hunger - d) }
    if n.hunger ≤ 0 then
      let n := { n with alive := false, deathCause := some .starvation }
      .error (n, ⟨false, some .starvation, ev ++ [.death .starvation]⟩, i)
    else .ok (n, ev, i)

/-- `=== ENERGY ===`: regen while resting (shelter-scaled), drain while moving
or in water (amplified in deep water), exhaustion timer, and the
exhaustion/drowning death once the timer passes the threshold; finally the
forced-rest event at critically low energy. -/
def stageEnergy (delta : ℚ) (ctx : Ctx) : NeedsSt → Except DeadRes NeedsSt :=
  fun (n0, ev, i) =>
    let n1 :=
      if ctx.isResting then
        let r0 := NEEDS_CONFIG.energyRestoreRate * delta
        let r := if ctx.inShelter then r0 * NEEDS_CONFIG.energyRestoreShelterMult else r0
        { n0 with energy := min 1 (n0.energy + r), exhaustionTimer := 0 }
      else if ctx.isMoving ∨ ctx.inWater then
        let d0 := NEEDS_CONFIG.energyDecayRate * delta
        let d := if ctx.inDeepWater then NEEDS_CONFIG.drownEnergyDrain * delta else d0
        { n0 with energy := max 0 (n0.energy - d) }
      else n0
    if n1.energy ≤ 0 then
      let n2 := { n1 with exhaustionTimer := n1.exhaustionTimer + delta }
      if n2.exhaustionTimer ≥ NEEDS_CONFIG.exhaustionDeathTime then
        let cause := if n2.inDeepWater then DeathCause.drowning else DeathCause.exhaustion
        let n := { n2 with alive := false, deathCause := some cause }
        .error (n, ⟨false, some cause, ev ++ [.death cause]⟩, i)
      else
        let ev := if n2.energy < NEEDS_CONFIG.energyCriticalThreshold ∧ ¬ctx.isResting
          then ev ++ [.forcedRest] else ev
        .ok (n2, ev, i)
    else
      let n2 := { n1 with exhaustionTimer := 0 }
      let ev := if n2.energy < NEEDS_CONFIG.energyCriticalThreshold ∧ ¬ctx.isResting
        then ev ++ [.forcedRest] else ev
      .ok (n2, ev, i)

/-- The `healthChange` accumulator of the `=== HEALTH ===` section. -/
def healthChange (delta : ℚ) (ctx : Ctx) (n : Needs) : ℚ :=
  let hc : ℚ := -(NEEDS_CONFIG.healthDecayBase * delta)
  let hc := if n.isSick then hc - NEEDS_CONFIG.healthSicknessDecay * delta else hc
  if ctx.isResting ∧ n.hunger > 0.5 ∧ ¬n.isSick
  then hc + NEEDS_CONFIG.healthRecoverRate * delta else hc

/-- `=== HEALTH ===`: clamped update and the health-depletion death, whose
cause is `needs.isSick ? SICKNESS : OLD_AGE`. -/
def stageHealth (delta : ℚ) (ctx : Ctx) : NeedsSt → Except DeadRes NeedsSt :=
  fun (n0, ev, i) =>
    let n := { n0 with health := max 0 (min 1 (n0.health + healthChange delta ctx n0)) }
    if n.health ≤ 0 then
      let cause := if n.isSick then DeathCause.sickness else DeathCause.oldAge
      let n := { n with alive := false, deathCause := some cause }
      .error (n, ⟨false, some cause, ev ++ [.death cause]⟩, i)
    else .ok (n, ev, i)

/-- `=== SOCIAL ===`: proximity-scaled regen or decay, plus the isolation
health penalty. -/
def stageSocial (delta : ℚ) (ctx : Ctx) : NeedsSt → NeedsSt :=
  fun (n0, ev, i) =>
    let n :=
      if ctx.nearbyAgentCount > 0 then
        { n0 with social := min 1 (n0.social +
            NEEDS_CONFIG.socialRecoverRate * delta * ctx.nearbyAgentCount) }
      else
        { n0 with social := max 0 (n0.social - NEEDS_CONFIG.socialDecayRate * delta) }
    let n := if n.social < 0.2 then { n with health := max 0 (n.health - 0.0002 * delta) } else n
    (n, ev, i)

/-- `=== REPRODUCTION DRIVE ===`. -/
def stageReproduction (delta : ℚ) : NeedsSt → NeedsSt :=
  fun (n0, ev, i) =>
    let n :=
      if n0.lifeStage.canReproduce ∧ ¬n0.isPregnant then
        { n0 with reproductionDrive := min 1 (n0.reproductionDrive +
            NEEDS_CONFIG.reproductionDriveRate * delta) }
      else n0
    (n, ev, i)

/-- The `// Sickness spread` contagion roll of the `=== SICKNESS ===` section
(`Math.random() < sicknessSpreadChance * delta`, drawn only when the agent is
not sick and a sick agent is near). -/
def stageSicknessSpread (delta : ℚ) (ctx : Ctx) (mrand : ℕ → ℚ) : NeedsSt → NeedsSt :=
  fun (n1, ev, i) =>
    if ¬n1.isSick ∧ ctx.nearSickAgent then
      if mrand i < NEEDS_CONFIG.sicknessSpreadChance * delta then
        ({ n1 with isSick := true, sicknessTimer := NEEDS_CONFIG.sicknessDuration },
         ev ++ [.gotSick], i + 1)
      else (n1, ev, i + 1)
    else (n1, ev, i)

/-- `=== SICKNESS ===`: countdown/recovery, then the contagion roll. -/
def stageSickness (delta : ℚ) (ctx : Ctx) (mrand : ℕ → ℚ) : NeedsSt → NeedsSt :=
  fun (n0, ev, i) =>
    if n0.isSick then
      let n := { n0 with sicknessTimer := n0.sicknessTimer - delta }
      if n.sicknessTimer ≤ 0 then
        stageSicknessSpread delta ctx mrand ({ n with isSick := false }, ev ++ [.recovered], i)
      else stageSicknessSpread delta ctx mrand (n, ev, i)
    else stageSicknessSpread delta ctx mrand (n0, ev, i)

/-- `=== PREGNANCY ===`: timer, the birth event with childbirth exhaustion,
and the rare complication death
(`Math.random() < 0.02 && needs.health < 0.3`; the roll is always drawn inside
the birth branch). -/
def stagePregnancy (delta : ℚ) (mrand : ℕ → ℚ) : NeedsSt → Except DeadRes NeedsSt :=
  fun (n0, ev, i) =>
    if n0.isPregnant then
      let n1 := { n0 with pregnancyTimer := n0.pregnancyTimer + delta }
      if n1.pregnancyTimer ≥ n1.pregnancyDuration then
        let ev := ev ++ [.giveBirth]
        let n2 := { n1 with isPregnant := false, pregnancyTimer := 0,
                            energy := max 0.1 (n1.energy - 0.4) }
        if mrand i < 0.02 ∧ n2.health < 0.3 then
          let n := { n2 with alive := false, deathCause := some .childbirth }
          .error (n, ⟨false, some .childbirth, ev ++ [.death .childbirth]⟩, i + 1)
        else .ok (n2, ev, i + 1)
      else .ok (n1, ev, i)
    else .ok (n0, ev, i)

/-- `updateNeeds(needs, delta, context)`.  The sections run in source order;
an early `return` on death is the `Except.error` path.  `mrand`/`i` model the
ambient `Math.random()` stream and its position: `updateNeeds` draws its
probabilistic branches (old-age death, sickness spread, childbirth
complication) from `Math.random()`, not from the seeded `seededRandom`
stream, so the seed state is not an input at all. -/
def updateNeeds (needs : Needs) (delta : ℚ) (ctx : Ctx) (mrand : ℕ → ℚ)
    (i : ℕ) : Needs × UpdateResult × ℕ :=
  if ¬needs.alive then (needs, ⟨false, needs.deathCause, []⟩, i)
  else
    let st0 : NeedsSt := (applyCtxFlags needs ctx, [], i)
    let r : Except DeadRes NeedsSt :=
      match stageAging delta mrand st0 with
      | .error r => .error r
      | .ok st1 =>
        match stageHunger delta ctx st1 with
        | .error r => .error r
        | .ok st2 =>
          match stageEnergy delta ctx st2 with
          | .error r => .error r
          | .ok st3 =>
            match stageHealth delta ctx st3 with
            | .error r => .error r
            | .ok st4 =>
              let st5 := stageSocial delta ctx st4
              let st6 := stageReproduction delta st5
              let st7 := stageSickness delta ctx mrand st6
              stagePregnancy delta mrand st7
    match r with
    | .error r => r
    | .ok (n, ev, i) => (n, ⟨true, none, ev⟩, i)

/-! ## Fishing (`FishingSystem.attemptCatch` in `config.js`) -/

/-- The `successRate` computation of `FishingSystem.attemptCatch`.
`fishingLevel = none` models an agent without `agent.skills`/`agent.skills.fishing`;
`some lvl` models `agent.skills.fishing.level || 0 = lvl`.  `attempts` is the
attempt counter read before this attempt increments it. -/
def attemptCatchRate (fishingLevel : Option ℕ) (energy : ℚ) (attempts : ℕ) : ℚ :=
  let successRate : ℚ := 0.25
  let successRate :=
    match fishingLevel with
    | some skillLevel => 0.25 + ((skillLevel : ℚ) / 100) * 0.70
    | none => successRate
  let successRate := if energy < 0.3 then successRate * 0.4 else successRate
  let successRate := successRate + min ((attempts : ℚ) * 0.01) 0.05
  min successRate 0.95

/-- The roll of `attemptCatch`: the single `seededRandom()` draw compared
against the computed rate; returns the success flag, the updated attempt
counter (`delete` on success models as reset to 0), and the advanced seed. -/
def attemptCatch (fishingLevel : Option ℕ) (energy : ℚ) (attempts : ℕ)
    (seed : ℕ) : Bool × ℕ × ℕ :=
  let successRate := attemptCatchRate fishingLevel energy attempts
  let roll := seededRandomValue seed
  let seed := seededRandomStep seed
  if roll < successRate then (true, 0, seed) else (false, attempts + 1, seed)

/-! ## Tribe coordinator (`systems/ai.js`) -/

/-- The slice of a task record `analyzeTribe` consults: `member.task.target`
(`none` models a falsy target). -/
structure TaskRec where
  target : Option String
  deriving DecidableEq, Repr

/-- The slice of a tribe member `analyzeTribe` consults. -/
structure Member where
  id : String
  alive : Bool
  task : Option TaskRec
  hunger : ℚ
  energy : ℚ
  health : ℚ
  pos : ℚ × ℚ × ℚ
  deriving DecidableEq, Repr

/-- An entry of `criticalNeeds`. -/
structure CriticalNeed where
  hunger : ℚ
  energy : ℚ
  health : ℚ
  needsHelp : Bool
  pos : ℚ × ℚ × ℚ
  deriving DecidableEq, Repr

/-- `TribeCoordinator`'s mutable maps (`taskAssignments` is never read or
written by the operations modelled here and is omitted). -/
structure Coordinator where
  criticalNeeds : List (String × CriticalNeed)
  claimedResources : List (String × String)
  deriving DecidableEq, Repr

/-- `TribeCoordinator.analyzeTribe(tribeMembers, hut)` (the `hut` argument is
unused by the source body).  Pass one: drop claims whose agent id is not
among `tribeMembers.map(m => m.id)` — note: *all* member ids, dead ones
included.  Pass two: drop claims of members with no task or no task target.
Pass three: rebuild `criticalNeeds` from the living members. -/
def analyzeTribe (c : Coordinator) (tribeMembers : List Member) : Coordinator :=
  let activeAgents := tribeMembers.map Member.id
  let claims := c.claimedResources.filter fun p => p.2 ∈ activeAgents
  let claims := tribeMembers.foldl
    (fun cl m =>
      match m.task with
      | none => cl.filter fun p => p.2 ≠ m.id
      | some t =>
        match t.target with
        | none => cl.filter fun p => p.2 ≠ m.id
        | some _ => cl)
    claims
  let criticalNeeds := tribeMembers.foldl
    (fun acc m =>
      if m.alive then
        let needsHelp := m.hunger < 0.2 ∨ m.energy < 0.15
        mapSet acc m.id ⟨m.hunger, m.energy, m.health, needsHelp, m.pos⟩
      else acc)
    []
  { criticalNeeds := criticalNeeds, claimedResources := claims }

/-- `TribeCoordinator.isResourceClaimed(resourceTarget, agentId)`. -/
def isResourceClaimed (c : Coordinator) (targetId agentId : String) : Bool :=
  match mapGet c.claimedResources targetId with
  | some claimingAgent => claimingAgent ≠ agentId
  | none => false

/-- `TribeCoordinator.claimResource(resourceTarget, agentId)`. -/
def claimResource (c : Coordinator) (targetId agentId : String) : Coordinator :=
  { c with claimedResources := mapSet c.claimedResources targetId agentId }

/-- `TribeCoordinator.releaseResource(resourceTarget, agentId)`. -/
def releaseResource (c : Coordinator) (targetId agentId : String) : Coordinator :=
  if mapGet c.claimedResources targetId = some agentId then
    { c with claimedResources := mapDelete c.claimedResources targetId }
  else c

/-! ## Derived predicates and concrete instances used by the development -/

/-- `createInventory(maxSlots)` (slot map only; the tool map is untouched by
the operations modelled here). -/
def createInventory (maxSlots : ℕ) : Inventory := ⟨[], maxSlots⟩

/-- The projection of an inventory to its slot occupancy and per-resource
counts (what the round-trip law of the spec speaks about). -/
def slotCounts (inv : Inventory) : List (String × ℕ) :=
  inv.slots.map fun p => (p.1, p.2.count)

/-- Well-formedness every inventory reachable through the JS `Map` interface
has: keys are unique, and no slot is retained at count 0 (both
`removeFromInventory` and the spoilage sweep delete a slot that reaches 0). -/
def WFInv (inv : Inventory) : Prop :=
  (∀ p ∈ inv.slots, 1 ≤ p.2.count) ∧ (inv.slots.map Prod.fst).Nodup

/-- The bounded-range invariant of the spec: hunger, energy, health and
social all lie in `[0, 1]`. -/
def InBounds (n : Needs) : Prop :=
  0 ≤ n.hunger ∧ n.hunger ≤ 1 ∧ 0 ≤ n.energy ∧ n.energy ≤ 1 ∧
  0 ≤ n.health ∧ n.health ≤ 1 ∧ 0 ≤ n.social ∧ n.social ≤ 1

/-- `InBounds` of the needs record carried by either outcome of a stage. -/
def boundsExc (r : Except DeadRes NeedsSt) : Prop :=
  match r with
  | .error (n, _, _) => InBounds n
  | .ok (n, _, _) => InBounds n

/-- The hut storage of the crafting scenario: exactly wood:2, stone:1, vine:5. -/
def storage9 : List (String × ℕ) := [("wood", 2), ("stone", 1), ("vine", 5)]

/-- A full single-slot inventory holding coconut:3 (coconut stack size is 6). -/
def inv4 : Inventory := ⟨[("coconut", ⟨3, []⟩)], 1⟩

/-- An inventory lacking the stone of the fishing-spear recipe. -/
def inv10 : Inventory := ⟨[("wood", ⟨2, []⟩)], 12⟩

/-- A dead tribe member that still carries a task with a live target. -/
def deadMember : Member := ⟨"a", false, some ⟨some "tree1"⟩, 1, 1, 1, (0, 0, 0)⟩

/-- A coordinator in which `deadMember` holds the claim on `tree1`. -/
def coord0 : Coordinator := ⟨[], [("tree1", "a")]⟩

/-- An agent old enough (age 100) for the old-age death roll to be drawn. -/
def c1needs : Needs where
  hunger := 0.8
  energy := 0.8
  health := 1
  social := 0.8
  reproductionDrive := 0
  age := 100
  lifeStage := LIFE_STAGES_ELDER
  isSick := false
  sicknessTimer := 0
  exhaustionTimer := 0
  isResting := false
  inShelter := false
  inWater := false
  inDeepWater := false
  deathCause := none
  alive := true
  isPregnant := false
  pregnancyTimer := 0
  pregnancyDuration := 30

/-- An idle context: not moving, not resting, dry land, nobody near. -/
def ctx0 : Ctx := ⟨false, false, false, false, false, 0, false⟩

/-- A sick adult whose health is about to be depleted by the sickness decay
(health `11/2000 = 0.0055`, exactly one tick of base + sickness decay). -/
def c8n : Needs where
  hunger := 0.5
  energy := 0.5
  health := 11/2000
  social := 0.5
  reproductionDrive := 0
  age := 20
  lifeStage := LIFE_STAGES_ADULT
  isSick := true
  sicknessTimer := 30
  exhaustionTimer := 0
  isResting := false
  inShelter := false
  inWater := false
  inDeepWater := false
  deathCause := none
  alive := true
  isPregnant := false
  pregnancyTimer := 0
  pregnancyDuration := 30

/-- `c8n` after the aging section of a `delta = 1` tick. -/
def c8s1 : NeedsSt :=
  ({ c8n with age := 1001/50, lifeStage := LIFE_STAGES_ADULT }, [], 0)

/-- `c8n` after the aging and hunger sections of a `delta = 1` tick (the
energy section leaves it unchanged). -/
def c8s2 : NeedsSt :=
  ({ c8n with age := 1001/50, lifeStage := LIFE_STAGES_ADULT, hunger := 247/500 }, [], 0)

/-! ## Association-list (JS `Map`) lemmas -/

theorem mapGet_mapSet_self {α : Type} (l : List (String × α)) (k : String) (v : α) :
    mapGet (mapSet l k v) k = some v := by
  induction l with
  | nil => simp [mapGet, mapSet]
  | cons hd tl ih =>
    obtain ⟨k', v'⟩ := hd
    by_cases h : k' = k <;> simp [mapGet, mapSet, h, ih]

theorem mapGet_mapSet_ne {α : Type} (l : List (String × α)) (k key : String) (v : α)
    (h : k ≠ key) : mapGet (mapSet l k v) key = mapGet l key := by
  induction l with
  | nil => simp [mapGet, mapSet, h]
  | cons hd tl ih =>
    obtain ⟨k', v'⟩ := hd
    simp only [mapSet]
    by_cases h1 : k' = k
    · subst h1
      rw [if_pos rfl]
      simp only [mapGet]
      rw [if_neg h, if_neg h]
    · rw [if_neg h1]
      simp only [mapGet]
      by_cases h2 : k' = key
      · rw [if_pos h2, if_pos h2]
      · rw [if_neg h2, if_neg h2]
        exact ih

theorem mapGet_mapDelete_ne {α : Type} (l : List (String × α)) (k key : String)
    (h : k ≠ key) : mapGet (mapDelete l k) key = mapGet l key := by
  induction l with
  | nil => simp [mapDelete]
  | cons hd tl ih =>
    obtain ⟨k', v'⟩ := hd
    simp only [mapDelete]
    by_cases h1 : k' = k
    · subst h1
      rw [if_pos rfl]
      simp only [mapGet]
      rw [if_neg h]
    · rw [if_neg h1]
      simp only [mapGet]
      by_cases h2 : k' = key
      · rw [if_pos h2, if_pos h2]
      · rw [if_neg h2, if_neg h2]
        exact ih

theorem mapGet_eq_none_of_not_mem {α : Type} (l : List (String × α)) (k : String)
    (h : k ∉ l.map Prod.fst) : mapGet l k = none := by
  induction l with
  | nil => simp [mapGet]
  | cons hd tl ih =>
    obtain ⟨k', v'⟩ := hd
    simp only [List.map_cons, List.mem_cons] at h
    push_neg at h
    simp [mapGet, Ne.symm h.1, ih h.2]

theorem mapGet_mapDelete_self {α : Type} (l : List (String × α)) (k : String)
    (hnd : (l.map Prod.fst).Nodup) : mapGet (mapDelete l k) k = none := by
  induction l with
  | nil => simp [mapDelete, mapGet]
  | cons hd tl ih =>
    obtain ⟨k', v'⟩ := hd
    simp only [List.map_cons, List.nodup_cons] at hnd
    by_cases h1 : k' = k
    · subst h1
      simp only [mapDelete, if_pos rfl]
      exact mapGet_eq_none_of_not_mem tl k' hnd.1
    · simp [mapDelete, mapGet, h1, ih hnd.2]

theorem mapSet_of_get_none {α : Type} (l : List (String × α)) (k : String) (v : α)
    (h : mapGet l k = none) : mapSet l k v = l ++ [(k, v)] := by
  induction l with
  | nil => simp [mapSet]
  | cons hd tl ih =>
    obtain ⟨k', v'⟩ := hd
    by_cases h1 : k' = k
    · simp [mapGet, h1] at h
    · simp only [mapGet, if_neg h1] at h
      simp [mapSet, h1, ih h]

theorem mapGet_append_singleton_self {α : Type} (l : List (String × α)) (k : String)
    (v : α) (h : mapGet l k = none) : mapGet (l ++ [(k, v)]) k = some v := by
  induction l with
  | nil => simp [mapGet]
  | cons hd tl ih =>
    obtain ⟨k', v'⟩ := hd
    by_cases h1 : k' = k
    · simp [mapGet, h1] at h
    · simp only [mapGet, if_neg h1] at h
      simp [mapGet, h1, ih h]

theorem mapDelete_append_singleton_self {α : Type} (l : List (String × α)) (k : String)
    (v : α) (h : mapGet l k = none) : mapDelete (l ++ [(k, v)]) k = l := by
  induction l with
  | nil => simp [mapDelete]
  | cons hd tl ih =>
    obtain ⟨k', v'⟩ := hd
    by_cases h1 : k' = k
    · simp [mapGet, h1] at h
    · simp only [mapGet, if_neg h1] at h
      simp [mapDelete, h1, ih h]

theorem mapSet_mapSet_self {α : Type} (l : List (String × α)) (k : String) (v w : α) :
    mapSet (mapSet l k v) k w = mapSet l k w := by
  induction l with
  | nil => simp [mapSet]
  | cons hd tl ih =>
    obtain ⟨k', v'⟩ := hd
    by_cases h1 : k' = k <;> simp [mapSet, h1, ih]

theorem map_mapSet_of_get_eq {α β : Type} (l : List (String × α)) (k : String)
    (v s : α) (f : α → β) (hget : mapGet l k = some s) (hf : f v = f s) :
    (mapSet l k v).map (fun p => (p.1, f p.2)) = l.map fun p => (p.1, f p.2) := by
  induction l with
  | nil => simp [mapGet] at hget
  | cons hd tl ih =>
    obtain ⟨k', v'⟩ := hd
    by_cases h1 : k' = k
    · subst h1
      simp only [mapGet, eq_self_iff_true, if_true, Option.some.injEq] at hget
      subst hget
      simp [mapSet, hf]
    · simp only [mapGet, if_neg h1] at hget
      simp [mapSet, h1, ih hget]

theorem mapSet_keys_of_get_some {α : Type} (l : List (String × α)) (k : String)
    (v s : α) (hget : mapGet l k = some s) :
    (mapSet l k v).map Prod.fst = l.map Prod.fst := by
  induction l with
  | nil => simp [mapGet] at hget
  | cons hd tl ih =>
    obtain ⟨k', v'⟩ := hd
    by_cases h1 : k' = k
    · subst h1
      simp [mapSet]
    · simp only [mapGet, if_neg h1] at hget
      simp [mapSet, h1, ih hget]

theorem mapDelete_sublist {α : Type} (l : List (String × α)) (k : String) :
    (mapDelete l k).Sublist l := by
  induction l with
  | nil => simp [mapDelete]
  | cons hd tl ih =>
    obtain ⟨k', v'⟩ := hd
    by_cases h1 : k' = k
    · simp only [mapDelete, if_pos h1]
      exact List.sublist_cons_self _ _
    · simp only [mapDelete, if_neg h1]
      exact List.Sublist.cons₂ _ ih

/-! ## Inventory lemmas -/

theorem getInventoryCount_remove_ne (inv : Inventory) (rid : String) (n : ℕ)
    (rid' : String) (h : rid ≠ rid') :
    getInventoryCount (removeFromInventory inv rid n).2 rid' =
      getInventoryCount inv rid' := by
  unfold removeFromInventory
  cases hget : mapGet inv.slots rid with
  | none => rfl
  | some existing =>
    by_cases hlt : existing.count < n
    · simp [hlt]
    · simp only [hlt, if_false]
      by_cases hz : existing.count - n = 0
      · simp only [hz, eq_self_iff_true, if_true, getInventoryCount]
        rw [mapGet_mapDelete_ne _ _ _ h]
      · simp only [hz, if_false, getInventoryCount]
        rw [mapGet_mapSet_ne _ _ _ _ h]

theorem getInventoryCount_remove_self (inv : Inventory) (rid : String) (n : ℕ)
    (hnd : (inv.slots.map Prod.fst).Nodup) :
    getInventoryCount (removeFromInventory inv rid n).2 rid =
      if n ≤ getInventoryCount inv rid then getInventoryCount inv rid - n
      else getInventoryCount inv rid := by
  unfold removeFromInventory
  cases hget : mapGet inv.slots rid with
  | none =>
    simp only [getInventoryCount, hget, Option.map_none', Option.getD_none]
    cases n <;> simp
  | some existing =>
    have hc : getInventoryCount inv rid = existing.count := by
      simp [getInventoryCount, hget]
    rw [hc]
    by_cases hlt : existing.count < n
    · have h2 : ¬ n ≤ existing.count := by omega
      simp [hlt, h2, hc]
    · have h2 : n ≤ existing.count := by omega
      simp only [hlt, if_false, h2, if_true]
      by_cases hz : existing.count - n = 0
      · simp only [hz, eq_self_iff_true, if_true, getInventoryCount]
        rw [mapGet_mapDelete_self _ _ hnd]
        simp [hz]
      · simp only [hz, if_false, getInventoryCount]
        rw [mapGet_mapSet_self]
        simp

theorem remove_preserves_nodup (inv : Inventory) (rid : String) (n : ℕ)
    (hnd : (inv.slots.map Prod.fst).Nodup) :
    ((removeFromInventory inv rid n).2.slots.map Prod.fst).Nodup := by
  unfold removeFromInventory
  cases hget : mapGet inv.slots rid with
  | none => exact hnd
  | some existing =>
    by_cases hlt : existing.count < n
    · simpa [hlt] using hnd
    · simp only [hlt, if_false]
      by_cases hz : existing.count - n = 0
      · simp only [hz, if_pos rfl]
        exact hnd.sublist ((mapDelete_sublist _ _).map _)
      · simp only [if_neg hz]
        rw [mapSet_keys_of_get_some _ _ _ _ hget]
        exact hnd

theorem fold_remove_not_mem (recipe : List (String × ℕ)) (inv : Inventory)
    (rid : String) (h : rid ∉ recipe.map Prod.fst) :
    getInventoryCount
      (recipe.foldl (fun acc p => (removeFromInventory acc p.1 p.2).2) inv) rid =
      getInventoryCount inv rid := by
  induction recipe generalizing inv with
  | nil => rfl
  | cons hd tl ih =>
    obtain ⟨r0, n0⟩ := hd
    simp only [List.map_cons, List.mem_cons] at h
    push_neg at h
    rw [List.foldl_cons, ih _ h.2, getInventoryCount_remove_ne _ _ _ _ (Ne.symm h.1)]

theorem fold_remove_count (recipe : List (String × ℕ)) (inv : Inventory)
    (hnd : (inv.slots.map Prod.fst).Nodup) (hrec : (recipe.map Prod.fst).Nodup)
    (rid : String) (n : ℕ) (hmem : (rid, n) ∈ recipe) :
    getInventoryCount
      (recipe.foldl (fun acc p => (removeFromInventory acc p.1 p.2).2) inv) rid =
      if n ≤ getInventoryCount inv rid then getInventoryCount inv rid - n
      else getInventoryCount inv rid := by
  induction recipe generalizing inv with
  | nil => simp at hmem
  | cons hd tl ih =>
    obtain ⟨r0, n0⟩ := hd
    simp only [List.map_cons, List.nodup_cons] at hrec
    rcases List.mem_cons.mp hmem with heq | htl
    · obtain ⟨rfl, rfl⟩ := Prod.mk.injEq .. ▸ heq
      have hout : rid ∉ tl.map Prod.fst := by
        simpa using hrec.1
      rw [List.foldl_cons, fold_remove_not_mem _ _ _ hout,
        getInventoryCount_remove_self _ _ _ hnd]
    · have hne : r0 ≠ rid := by
        intro hcontra
        subst hcontra
        exact hrec.1 (List.mem_map.mpr ⟨(r0, n), htl, rfl⟩)
      rw [List.foldl_cons,
        ih _ (remove_preserves_nodup _ _ _ hnd) hrec.2 htl,
        getInventoryCount_remove_ne _ _ _ _ hne]

theorem craftingRecipe_keys_nodup (recipeId : String) (recipe : List (String × ℕ))
    (h : craftingRecipe recipeId = some recipe) : (recipe.map Prod.fst).Nodup := by
  unfold craftingRecipe at h
  split at h <;> simp_all <;> subst h <;> decide

/-! ## Claim C9 — crafting frame/effect scenario -/

/-- C9 (code bug): the claim says crafting the fishing-spear recipe
`{wood: 2, stone: 1}` from a store holding exactly wood:2, stone:1, vine:5
succeeds and deducts exactly 2 wood and 1 stone, leaving vine:5.  In the
program, `canCraft` is indeed true, the craft completes, and the recipe
consumption computes exactly that deduction (the adapter ends holding only
vine:5) — but `updateCrafting` hands `consumeCraftingResources` a fresh
throwaway `hutAsInventory()` copy, so the persistent `hut.storage` still
holds wood:2, stone:1, vine:5 after the craft; the only lasting effect is
the produced-spear count rising by exactly one.  The deduction the claim
(and the spec) require never reaches the store. -/
theorem c9_craft_does_not_deduct_store :
    canCraft (hutAsInventory storage9) "fishing_spear" = true ∧
    (updateCraftingSpear storage9).1 = true ∧
    (updateCraftingSpear storage9).2.1.slots = [("vine", ⟨5, []⟩)] ∧
    (updateCraftingSpear storage9).2.2 =
      [("wood", 2), ("stone", 1), ("vine", 5), ("fishing_spear", 1)] := by
  decide

/-! ## Claim C2 — claims of dead agents and the reconciliation pass -/

/-- C2 (code bug): `analyzeTribe` does **not** remove the claims of a dead
agent.  `deadMember` is dead (`alive = false`) and owns the claim on
`tree1`, yet after a full `analyzeTribe` pass over a member list containing
it the claim is still present: the first cleanup loop keys on membership in
`tribeMembers` (dead members included) and the second on a missing task
target, and death in the source clears neither.  (The single-claimant half
of the claim holds trivially: `claimedResources` is a single-valued map.) -/
theorem c2_dead_agent_claim_survives :
    deadMember.alive = false ∧
    mapGet coord0.claimedResources "tree1" = some "a" ∧
    (analyzeTribe coord0 [deadMember]).claimedResources = [("tree1", "a")] := by
  decide

/-! ## Claim C4 — inventory add on overflow -/

/-- C4 (counterexample): the claim says that when adding would exceed the
stack size and no new slot is available, `add` returns false and leaves the
inventory unchanged.  `inv4` holds coconut:3 (stack size 6) in its single
allowed slot, so adding 5 coconuts would exceed the stack while no new slot
is available — yet `addToInventory` returns **true** and truncates the slot
to 6: a partial, truncated addition. -/
theorem c4_add_counterexample :
    addToInventory inv4 "coconut" 5 0 false = (true, ⟨[("coconut", ⟨6, []⟩)], 1⟩) := by
  decide

/-- C4 (amended): when adding `n` would push a resource past its stack size,
`addToInventory` returns false with the inventory unchanged **only if** the
resource has no existing slot and the slot map is full; whenever the
resource already has a slot (or a slot is free), it returns true and clamps
the slot count at the stack size — a truncated addition. -/
theorem c4_add_overflow_behavior (inv : Inventory) (rid : String)
    (rdef : ResourceDef) (n : ℕ) (now : ℚ) (ck : Bool)
    (hres : RESOURCES rid = some rdef)
    (hover : rdef.stackSize < getInventoryCount inv rid + n) :
    (inv.maxSlots ≤ inv.slots.length ∧ getInventoryCount inv rid = 0 →
      addToInventory inv rid n now ck = (false, inv)) ∧
    (getInventoryCount inv rid ≠ 0 ∨ inv.slots.length < inv.maxSlots →
      (addToInventory inv rid n now ck).1 = true ∧
      getInventoryCount (addToInventory inv rid n now ck).2 rid = rdef.stackSize) := by
  have hex : ((mapGet inv.slots rid).getD ⟨0, []⟩).count = getInventoryCount inv rid := by
    cases hget : mapGet inv.slots rid <;> simp [getInventoryCount, hget]
  constructor
  · rintro ⟨hfull, hzero⟩
    unfold addToInventory
    simp only [hres]
    rw [if_pos]
    refine ⟨by omega, hfull, by omega⟩
  · intro hcase
    have hcond : ¬ (((mapGet inv.slots rid).getD ⟨0, []⟩).count + n > rdef.stackSize ∧
        inv.slots.length ≥ inv.maxSlots ∧ ((mapGet inv.slots rid).getD ⟨0, []⟩).count = 0) := by
      rcases hcase with hnz | hroom
      · rintro ⟨-, -, hz⟩
        omega
      · rintro ⟨-, hfull, -⟩
        omega
    constructor
    · unfold addToInventory
      simp only [hres]
      rw [if_neg hcond]
    · unfold addToInventory
      simp only [hres]
      rw [if_neg hcond]
      simp only [getInventoryCount]
      rw [mapGet_mapSet_self]
      simp only [Option.map_some', Option.getD_some]
      omega

/-- C4 (witness for the amended theorem), at the truncation case of `inv4`:
coconut:3 plus 5 exceeds the stack size 6 while the slot map is full, and the
add returns true with the count clamped to 6. -/
theorem c4_add_overflow_behavior_witness :
    RESOURCES "coconut" = some ⟨6, none⟩ ∧
    (6 : ℕ) < getInventoryCount inv4 "coconut" + 5 ∧
    ((addToInventory inv4 "coconut" 5 0 false).1 = true ∧
      getInventoryCount (addToInventory inv4 "coconut" 5 0 false).2 "coconut" = 6) :=
  ⟨by decide, by decide,
    (c4_add_overflow_behavior inv4 "coconut" ⟨6, none⟩ 5 0 false (by decide)
      (by decide)).2 (Or.inl (by decide))⟩

/-! ## Claim C7 — fishing catch probability -/

/-- C7 (counterexample): the claim says the computed success probability
always stays within `[base, 0.95]` with `base = 0.25`; but the low-energy
penalty is a multiplicative `* 0.4`, so an unskilled agent with energy `0.2`
on its first attempt gets probability `0.1 < 0.25`. -/
theorem c7_rate_below_base_counterexample :
    attemptCatchRate (some 0) (1/5) 0 = 0.1 ∧ ¬ (0.25 ≤ attemptCatchRate (some 0) (1/5) 0) := by
  constructor <;> norm_num [attemptCatchRate]

/-- C7 (amended): with fishing skill level 50, energy not below the
low-energy threshold 0.3, and zero prior attempts, the computed success
probability equals `0.25 + (50/100)·0.70 = 0.60`; and for every attempt the
probability lies within `[0.1, 0.95]` (i.e. `[base·0.4, 0.95]`; the lower
bound `base = 0.25` claimed by the spec holds only when the low-energy
penalty does not fire, since that penalty is multiplicative). -/
theorem c7_rate_scenario_and_range :
    (∀ energy : ℚ, ¬ energy < 0.3 → attemptCatchRate (some 50) energy 0 = 0.6) ∧
    (∀ (lvl : Option ℕ) (energy : ℚ) (attempts : ℕ),
      0.1 ≤ attemptCatchRate lvl energy attempts ∧
      attemptCatchRate lvl energy attempts ≤ 0.95) := by
  constructor
  · intro energy he
    simp only [attemptCatchRate]
    rw [if_neg he]
    norm_num
  · intro lvl energy attempts
    have hmin : (0 : ℚ) ≤ min ((attempts : ℚ) * 0.01) 0.05 := by
      have h1 : (0 : ℚ) ≤ (attempts : ℚ) * 0.01 := by positivity
      exact le_min h1 (by norm_num)
    have hbase : (0.25 : ℚ) ≤
        (match lvl with
          | some skillLevel => 0.25 + ((skillLevel : ℚ) / 100) * 0.70
          | none => (0.25 : ℚ)) := by
      cases lvl with
      | none => norm_num
      | some skillLevel =>
        have : (0 : ℚ) ≤ ((skillLevel : ℚ) / 100) * 0.70 := by positivity
        linarith
    unfold attemptCatchRate
    constructor
    · refine le_min ?_ (by norm_num)
      split <;> nlinarith [hmin, hbase]
    · exact min_le_right _ _

/-- C7 (witness): the scenario part of the amended theorem applied at
energy 1 — skill 50, full energy, zero attempts gives probability 0.6. -/
theorem c7_rate_scenario_witness :
    ¬ (1 : ℚ) < 0.3 ∧ attemptCatchRate (some 50) 1 0 = 0.6 :=
  ⟨by norm_num, c7_rate_scenario_and_range.1 1 (by norm_num)⟩

/-! ## Claim C6 — add/remove round trip -/

theorem mapGet_mem {α : Type} (l : List (String × α)) (k : String) (v : α)
    (h : mapGet l k = some v) : (k, v) ∈ l := by
  induction l with
  | nil => simp [mapGet] at h
  | cons hd tl ih =>
    obtain ⟨k', v'⟩ := hd
    by_cases h1 : k' = k
    · subst h1
      simp only [mapGet, eq_self_iff_true, if_true, Option.some.injEq] at h
      subst h
      exact List.mem_cons_self _ _
    · simp only [mapGet, if_neg h1] at h
      exact List.mem_cons_of_mem _ (ih h)

theorem getD_count_eq (inv : Inventory) (rid : String) :
    ((mapGet inv.slots rid).getD ⟨0, []⟩).count = getInventoryCount inv rid := by
  cases hget : mapGet inv.slots rid <;> simp [getInventoryCount, hget]

theorem get_none_of_count_zero (inv : Inventory) (rid : String) (hwf : WFInv inv)
    (hc : getInventoryCount inv rid = 0) : mapGet inv.slots rid = none := by
  cases hget : mapGet inv.slots rid with
  | none => rfl
  | some s =>
    have h1 : 1 ≤ s.count := hwf.1 (rid, s) (mapGet_mem _ _ _ hget)
    simp [getInventoryCount, hget] at hc
    omega

/-- Removing exactly the count of a freshly appended slot deletes it again. -/
theorem removeFromInventory_append_self (l : List (String × Slot)) (rid : String)
    (ms : ℕ) (v : Slot) (hget : mapGet l rid = none) :
    removeFromInventory ⟨l ++ [(rid, v)], ms⟩ rid v.count =
      (some (if (v.items.take v.count).length > 0
        then .removedItems (v.items.take v.count) else .countOnly v.count), ⟨l, ms⟩) := by
  unfold removeFromInventory
  simp only [mapGet_append_singleton_self l rid v hget]
  rw [if_neg (lt_irrefl v.count)]
  simp only [Nat.sub_self, eq_self_iff_true, if_true]
  rw [mapDelete_append_singleton_self _ _ _ hget]

/-- Removing `k` from a slot that was just set to `s.count + k` restores the
prior per-resource counts. -/
theorem remove_after_add_present (l : List (String × Slot)) (rid : String)
    (ms k : ℕ) (s v : Slot) (hget : mapGet l rid = some s)
    (hv : v.count = s.count + k) (hnz : s.count ≠ 0) :
    slotCounts (removeFromInventory ⟨mapSet l rid v, ms⟩ rid k).2 =
      slotCounts ⟨l, ms⟩ := by
  unfold removeFromInventory
  simp only [mapGet_mapSet_self l rid v]
  rw [if_neg (by omega)]
  have hz : ¬ (v.count - k = 0) := by omega
  simp only [hz, if_false]
  simp only [slotCounts, mapSet_mapSet_self]
  exact map_mapSet_of_get_eq _ _ _ _ _ hget (by simp only [hv]; omega)

/-- C6: for every well-formed inventory, known resource, and quantity `k`
whose addition stays within the per-resource stack size (with a slot
available), adding `k` and then removing `k` returns the inventory to its
prior slot occupancy and per-resource counts. -/
theorem c6_add_remove_roundtrip (inv : Inventory) (rid : String)
    (rdef : ResourceDef) (k : ℕ) (now : ℚ) (ck : Bool)
    (hres : RESOURCES rid = some rdef)
    (hwf : WFInv inv)
    (hfit : getInventoryCount inv rid + k ≤ rdef.stackSize)
    (hroom : inv.slots.length < inv.maxSlots ∨ getInventoryCount inv rid ≠ 0) :
    (addToInventory inv rid k now ck).1 = true ∧
    slotCounts (removeFromInventory (addToInventory inv rid k now ck).2 rid k).2 =
      slotCounts inv := by
  have hex := getD_count_eq inv rid
  have hcond : ¬ (((mapGet inv.slots rid).getD ⟨0, []⟩).count + k > rdef.stackSize ∧
      inv.slots.length ≥ inv.maxSlots ∧ ((mapGet inv.slots rid).getD ⟨0, []⟩).count = 0) := by
    rintro ⟨h1, -, -⟩
    omega
  by_cases hc : getInventoryCount inv rid = 0
  · have hget : mapGet inv.slots rid = none := get_none_of_count_zero inv rid hwf hc
    have hk : min rdef.stackSize (0 + k) = k := by omega
    unfold addToInventory
    simp only [hres, hget, Option.getD_none]
    rw [if_neg (by simpa [hget] using hcond)]
    refine ⟨rfl, ?_⟩
    simp only [hk]
    rw [mapSet_of_get_none _ _ _ hget]
    exact congrArg slotCounts (congrArg Prod.snd
      (removeFromInventory_append_self inv.slots rid inv.maxSlots _ hget))
  · obtain ⟨s, hget⟩ : ∃ s, mapGet inv.slots rid = some s := by
      cases hgot : mapGet inv.slots rid with
      | none => simp [getInventoryCount, hgot] at hc
      | some s => exact ⟨s, rfl⟩
    have hsc : s.count = getInventoryCount inv rid := by
      simp [getInventoryCount, hget]
    have hk : min rdef.stackSize (s.count + k) = s.count + k := by omega
    unfold addToInventory
    simp only [hres, hget, Option.getD_some]
    rw [if_neg (by simpa [hget] using hcond)]
    refine ⟨rfl, ?_⟩
    simp only [hk]
    exact remove_after_add_present inv.slots rid inv.maxSlots k s _ hget rfl (by omega)

/-- C6 (witness): adding 2 coconuts to a fresh empty inventory and removing
them again restores the empty slot map. -/
theorem c6_add_remove_roundtrip_witness :
    RESOURCES "coconut" = some ⟨6, none⟩ ∧
    WFInv (createInventory 12) ∧
    getInventoryCount (createInventory 12) "coconut" + 2 ≤ 6 ∧
    ((createInventory 12).slots.length < (createInventory 12).maxSlots ∨
      getInventoryCount (createInventory 12) "coconut" ≠ 0) ∧
    ((addToInventory (createInventory 12) "coconut" 2 0 false).1 = true ∧
      slotCounts (removeFromInventory
        (addToInventory (createInventory 12) "coconut" 2 0 false).2 "coconut" 2).2 =
        slotCounts (createInventory 12)) :=
  ⟨by decide, ⟨by decide, by decide⟩, by decide, Or.inl (by decide),
    c6_add_remove_roundtrip (createInventory 12) "coconut" ⟨6, none⟩ 2 0 false
      (by decide) ⟨by decide, by decide⟩ (by decide) (Or.inl (by decide))⟩

/-! ## Claim C10 — crafting consumption is not atomic -/

/-- C10: for every inventory (with the unique keys the JS `Map` guarantees)
that cannot craft a known recipe because some ingredient is insufficient,
`consumeCraftingResources` still returns true and deducts exactly the
ingredients whose counts suffice, leaving each insufficient ingredient's
count untouched — consumption is not atomic and performs no sufficiency
re-check of its own. -/
theorem c10_consume_not_atomic (inv : Inventory) (recipeId : String)
    (recipe : List (String × ℕ))
    (hrec : craftingRecipe recipeId = some recipe)
    (hnd : (inv.slots.map Prod.fst).Nodup)
    (hlack : canCraft inv recipeId = false) :
    (consumeCraftingResources inv recipeId).1 = true ∧
    ∀ rid n, (rid, n) ∈ recipe →
      getInventoryCount (consumeCraftingResources inv recipeId).2 rid =
        if n ≤ getInventoryCount inv rid then getInventoryCount inv rid - n
        else getInventoryCount inv rid := by
  unfold consumeCraftingResources
  simp only [hrec]
  refine ⟨trivial, fun rid n hmem => ?_⟩
  exact fold_remove_count recipe inv hnd (craftingRecipe_keys_nodup _ _ hrec) rid n hmem

/-- C10 (witness): an inventory holding only wood:2 cannot craft the fishing
spear (no stone), yet consumption returns true, removes the 2 wood, and
leaves the stone count at 0. -/
theorem c10_consume_not_atomic_witness :
    craftingRecipe "fishing_spear" = some [("wood", 2), ("stone", 1)] ∧
    (inv10.slots.map Prod.fst).Nodup ∧
    canCraft inv10 "fishing_spear" = false ∧
    ((consumeCraftingResources inv10 "fishing_spear").1 = true ∧
      ∀ rid n, (rid, n) ∈ [("wood", 2), ("stone", 1)] →
        getInventoryCount (consumeCraftingResources inv10 "fishing_spear").2 rid =
          if n ≤ getInventoryCount inv10 rid then getInventoryCount inv10 rid - n
          else getInventoryCount inv10 rid) :=
  ⟨by decide, by decide, by decide,
    c10_consume_not_atomic inv10 "fishing_spear" [("wood", 2), ("stone", 1)]
      (by decide) (by decide) (by decide)⟩

/-! ## Claim C3 — needs remain in `[0, 1]` -/

theorem clamp_sub_mem (x d : ℚ) (h0 : 0 ≤ x) (h1 : x ≤ 1) (hd : 0 ≤ d) :
    0 ≤ max 0 (x - d) ∧ max 0 (x - d) ≤ 1 :=
  ⟨le_max_left _ _, max_le (by linarith) (by linarith)⟩

theorem clamp_add_mem (x r : ℚ) (h0 : 0 ≤ x) (hr : 0 ≤ r) :
    0 ≤ min 1 (x + r) ∧ min 1 (x + r) ≤ 1 :=
  ⟨le_min (by linarith) (by linarith), min_le_left _ _⟩

theorem clamp01_mem (x : ℚ) : 0 ≤ max 0 (min 1 x) ∧ max 0 (min 1 x) ≤ 1 :=
  ⟨le_max_left _ _, max_le (by linarith) (min_le_left _ _)⟩

theorem applyCtxFlags_bounds (n : Needs) (ctx : Ctx) (h : InBounds n) :
    InBounds (applyCtxFlags n ctx) := h

theorem stageAging_bounds (delta : ℚ) (mrand : ℕ → ℚ) (st : NeedsSt)
    (hb : InBounds st.1) : boundsExc (stageAging delta mrand st) := by
  obtain ⟨n, ev, i⟩ := st
  simp only [stageAging]
  split_ifs <;> exact hb

set_option maxHeartbeats 1000000 in
theorem stageHunger_bounds (delta : ℚ) (ctx : Ctx) (st : NeedsSt)
    (hb : InBounds st.1) (hd : 0 ≤ delta) : boundsExc (stageHunger delta ctx st) := by
  obtain ⟨n, ev, i⟩ := st
  obtain ⟨hh0, hh1, he0, he1, hl0, hl1, hs0, hs1⟩ := hb
  simp only [stageHunger, NEEDS_CONFIG]
  split_ifs <;>
    refine ⟨?_, ?_, ?_, ?_, ?_, ?_, ?_, ?_⟩ <;>
    first
      | exact hh0 | exact hh1 | exact he0 | exact he1
      | exact hl0 | exact hl1 | exact hs0 | exact hs1
      | exact le_max_left _ _
      | (refine max_le (by norm_num) ?_; nlinarith)

set_option maxHeartbeats 1000000 in
theorem stageEnergy_bounds (delta : ℚ) (ctx : Ctx) (st : NeedsSt)
    (hb : InBounds st.1) (hd : 0 ≤ delta) : boundsExc (stageEnergy delta ctx st) := by
  obtain ⟨n, ev, i⟩ := st
  obtain ⟨hh0, hh1, he0, he1, hl0, hl1, hs0, hs1⟩ := hb
  simp only [stageEnergy, NEEDS_CONFIG]
  split_ifs <;>
    refine ⟨?_, ?_, ?_, ?_, ?_, ?_, ?_, ?_⟩ <;>
    first
      | exact hh0 | exact hh1 | exact he0 | exact he1
      | exact hl0 | exact hl1 | exact hs0 | exact hs1
      | exact le_max_left _ _
      | exact min_le_left _ _
      | (refine le_min (by norm_num) ?_; nlinarith)
      | (refine max_le (by norm_num) ?_; nlinarith)

set_option maxHeartbeats 1000000 in
theorem stageHealth_bounds (delta : ℚ) (ctx : Ctx) (st : NeedsSt)
    (hb : InBounds st.1) : boundsExc (stageHealth delta ctx st) := by
  obtain ⟨n, ev, i⟩ := st
  obtain ⟨hh0, hh1, he0, he1, hl0, hl1, hs0, hs1⟩ := hb
  simp only [stageHealth]
  split_ifs <;>
    refine ⟨?_, ?_, ?_, ?_, ?_, ?_, ?_, ?_⟩ <;>
    first
      | exact hh0 | exact hh1 | exact he0 | exact he1
      | exact hl0 | exact hl1 | exact hs0 | exact hs1
      | exact le_max_left _ _
      | exact max_le (by norm_num) (min_le_left _ _)

set_option maxHeartbeats 1000000 in
theorem stageSocial_bounds (delta : ℚ) (ctx : Ctx) (st : NeedsSt)
    (hb : InBounds st.1) (hd : 0 ≤ delta) : InBounds (stageSocial delta ctx st).1 := by
  obtain ⟨n, ev, i⟩ := st
  obtain ⟨hh0, hh1, he0, he1, hl0, hl1, hs0, hs1⟩ := hb
  have hcnt : (0 : ℚ) ≤ (ctx.nearbyAgentCount : ℚ) := Nat.cast_nonneg _
  simp only [stageSocial, NEEDS_CONFIG]
  split_ifs <;>
    refine ⟨?_, ?_, ?_, ?_, ?_, ?_, ?_, ?_⟩ <;>
    first
      | exact hh0 | exact hh1 | exact he0 | exact he1
      | exact hl0 | exact hl1 | exact hs0 | exact hs1
      | exact le_max_left _ _
      | exact min_le_left _ _
      | (refine le_min (by norm_num) ?_; nlinarith)
      | (refine max_le (by norm_num) ?_; nlinarith)

theorem stageReproduction_bounds (delta : ℚ) (st : NeedsSt)
    (hb : InBounds st.1) : InBounds (stageReproduction delta st).1 := by
  obtain ⟨n, ev, i⟩ := st
  simp only [stageReproduction]
  split_ifs <;> exact hb

theorem stageSicknessSpread_bounds (delta : ℚ) (ctx : Ctx) (mrand : ℕ → ℚ)
    (st : NeedsSt) (hb : InBounds st.1) :
    InBounds (stageSicknessSpread delta ctx mrand st).1 := by
  obtain ⟨n, ev, i⟩ := st
  simp only [stageSicknessSpread]
  split_ifs <;> exact hb

theorem stageSickness_bounds (delta : ℚ) (ctx : Ctx) (mrand : ℕ → ℚ) (st : NeedsSt)
    (hb : InBounds st.1) : InBounds (stageSickness delta ctx mrand st).1 := by
  obtain ⟨n, ev, i⟩ := st
  simp only [stageSickness]
  split_ifs <;> exact stageSicknessSpread_bounds _ _ _ _ hb

set_option maxHeartbeats 1000000 in
theorem stagePregnancy_bounds (delta : ℚ) (mrand : ℕ → ℚ) (st : NeedsSt)
    (hb : InBounds st.1) : boundsExc (stagePregnancy delta mrand st) := by
  obtain ⟨n, ev, i⟩ := st
  obtain ⟨hh0, hh1, he0, he1, hl0, hl1, hs0, hs1⟩ := hb
  simp only [stagePregnancy]
  split_ifs <;>
    refine ⟨?_, ?_, ?_, ?_, ?_, ?_, ?_, ?_⟩ <;>
    first
      | exact hh0 | exact hh1 | exact he0 | exact he1
      | exact hl0 | exact hl1 | exact hs0 | exact hs1
      | exact le_trans (by norm_num) (le_max_left _ _)
      | (refine max_le (by norm_num) ?_; nlinarith)

/-- C3: for every needs state whose hunger, energy, health and social values
lie in `[0, 1]`, every `delta ≥ 0`, and every context, the state produced by
one `updateNeeds` call has hunger, energy, health and social again in
`[0, 1]` — in the survival path and in every early-death return alike. -/
theorem c3_updateNeeds_preserves_bounds (n : Needs) (delta : ℚ) (ctx : Ctx)
    (mrand : ℕ → ℚ) (i : ℕ) (hb : InBounds n) (hd : 0 ≤ delta) :
    InBounds (updateNeeds n delta ctx mrand i).1 := by
  unfold updateNeeds
  by_cases ha : n.alive
  case neg => simp only [ha, not_false_iff, if_true]; exact hb
  case pos =>
    simp only [ha, not_true, if_false]
    have h0 : InBounds (applyCtxFlags n ctx) := applyCtxFlags_bounds n ctx hb
    have h1 := stageAging_bounds delta mrand (applyCtxFlags n ctx, [], i) h0
    cases hA : stageAging delta mrand (applyCtxFlags n ctx, [], i) with
    | error r =>
      rw [hA] at h1
      obtain ⟨rn, ru, ri⟩ := r
      exact h1
    | ok st1 =>
      rw [hA] at h1
      dsimp only
      have h2 := stageHunger_bounds delta ctx st1 h1 hd
      cases hB : stageHunger delta ctx st1 with
      | error r =>
        rw [hB] at h2
        obtain ⟨rn, ru, ri⟩ := r
        exact h2
      | ok st2 =>
        rw [hB] at h2
        dsimp only
        have h3 := stageEnergy_bounds delta ctx st2 h2 hd
        cases hC : stageEnergy delta ctx st2 with
        | error r =>
          rw [hC] at h3
          obtain ⟨rn, ru, ri⟩ := r
          exact h3
        | ok st3 =>
          rw [hC] at h3
          dsimp only
          have h4 := stageHealth_bounds delta ctx st3 h3
          cases hD : stageHealth delta ctx st3 with
          | error r =>
            rw [hD] at h4
            obtain ⟨rn, ru, ri⟩ := r
            exact h4
          | ok st4 =>
            rw [hD] at h4
            dsimp only
            have h5 := stageSocial_bounds delta ctx st4 h4 hd
            have h6 := stageReproduction_bounds delta _ h5
            have h7 := stageSickness_bounds delta ctx mrand _ h6
            have h8 := stagePregnancy_bounds delta mrand
              (stageSickness delta ctx mrand (stageReproduction delta (stageSocial delta ctx st4))) h7
            cases hE : stagePregnancy delta mrand
                (stageSickness delta ctx mrand (stageReproduction delta (stageSocial delta ctx st4))) with
            | error r =>
              rw [hE] at h8
              obtain ⟨rn, ru, ri⟩ := r
              exact h8
            | ok st7 =>
              rw [hE] at h8
              obtain ⟨rn, rev, ri⟩ := st7
              exact h8

/-- C3 (witness): the bounds theorem applied to a concrete in-bounds agent
(`c1needs`, all four values in `[0, 1]`) over one `delta = 1` tick. -/
theorem c3_updateNeeds_preserves_bounds_witness :
    InBounds c1needs ∧ (0 : ℚ) ≤ 1 ∧
    InBounds (updateNeeds c1needs 1 ctx0 (fun _ => 0) 0).1 :=
  ⟨by norm_num [InBounds, c1needs], by norm_num,
    c3_updateNeeds_preserves_bounds c1needs 1 ctx0 (fun _ => 0) 0
      (by norm_num [InBounds, c1needs]) (by norm_num)⟩

/-! ## Claim C5 — skill XP is monotone and capped -/

theorem getSkill_setSkill_self (skills : Skills) (skillId : SkillId) (s : SkillState) :
    getSkill (setSkill skills skillId s) skillId = s := by
  cases skillId <;> rfl

theorem levelUpLoop_level_aux (fuel : ℕ) : ∀ (xpNeeded xp : ℚ) (level maxLevel : ℕ)
    (b : Bool), maxLevel - level ≤ fuel →
    level ≤ (levelUpLoop xpNeeded xp level maxLevel b).2.1 ∧
    (level ≤ maxLevel → (levelUpLoop xpNeeded xp level maxLevel b).2.1 ≤ maxLevel) := by
  induction fuel with
  | zero =>
    intro xpNeeded xp level maxLevel b hf
    rw [levelUpLoop]
    have hstop : ¬ (xpNeeded ≤ xp ∧ level < maxLevel) := by
      rintro ⟨-, hlt⟩
      omega
    rw [if_neg hstop]
    exact ⟨le_refl _, fun h => h⟩
  | succ m ih =>
    intro xpNeeded xp level maxLevel b hf
    rw [levelUpLoop]
    by_cases hc : xpNeeded ≤ xp ∧ level < maxLevel
    · rw [if_pos hc]
      have h2 := ih xpNeeded (xp - xpNeeded) (level + 1) maxLevel true (by omega)
      exact ⟨by omega, fun h => h2.2 (by omega)⟩
    · rw [if_neg hc]
      exact ⟨le_refl _, fun h => h⟩

/-- C5: for every skills state, skill id, XP amount `≥ 0`, and
apprenticeship multiplier `≥ 1`, `addSkillXP` never decreases the skill's
level, and (from any level within the cap) the level never exceeds the
skill's maximum level 100, however much surplus XP is supplied. -/
theorem c5_addSkillXP_monotone_capped (skills : Skills) (skillId : SkillId)
    (amount bonus : ℚ) (hamt : 0 ≤ amount) (hbonus : 1 ≤ bonus)
    (hlvl : (getSkill skills skillId).level ≤ 100) :
    (getSkill skills skillId).level ≤
      (getSkill (addSkillXP skills skillId amount bonus).1 skillId).level ∧
    (getSkill (addSkillXP skills skillId amount bonus).1 skillId).level ≤ 100 := by
  unfold addSkillXP
  by_cases hge : (getSkill skills skillId).level ≥ SKILL_MAX_LEVEL
  · simp only [hge, if_true]
    exact ⟨le_refl _, hlvl⟩
  · simp only [hge, if_false]
    have h := levelUpLoop_level_aux
      (SKILL_MAX_LEVEL - (getSkill skills skillId).level)
      (getXPForLevel (getSkill skills skillId).level)
      ((getSkill skills skillId).xp + amount * bonus)
      (getSkill skills skillId).level SKILL_MAX_LEVEL false le_rfl
    rw [getSkill_setSkill_self]
    exact ⟨h.1, h.2 hlvl⟩

/-- C5 (witness): 250 XP with multiplier 1 on a fresh skill ledger — the
gathering level only rises and stays within the cap. -/
theorem c5_addSkillXP_monotone_capped_witness :
    (0 : ℚ) ≤ 250 ∧ (1 : ℚ) ≤ 1 ∧
    (getSkill createAgentSkills SkillId.gathering).level ≤ 100 ∧
    ((getSkill createAgentSkills SkillId.gathering).level ≤
      (getSkill (addSkillXP createAgentSkills SkillId.gathering 250 1).1
        SkillId.gathering).level ∧
    (getSkill (addSkillXP createAgentSkills SkillId.gathering 250 1).1
        SkillId.gathering).level ≤ 100) :=
  ⟨by norm_num, by norm_num, by decide,
    c5_addSkillXP_monotone_capped createAgentSkills SkillId.gathering 250 1
      (by norm_num) (by norm_num) (by decide)⟩

/-! ## Claim C8 — cause of a health-depletion death -/

theorem stageAging_isSick_eq (delta : ℚ) (mrand : ℕ → ℚ) (st st' : NeedsSt)
    (h : stageAging delta mrand st = .ok st') : st'.1.isSick = st.1.isSick := by
  obtain ⟨n, ev, i⟩ := st
  simp only [stageAging] at h
  split_ifs at h <;>
    first
      | exact Except.noConfusion h
      | (injection h with h; subst h; rfl)

theorem stageHunger_isSick_eq (delta : ℚ) (ctx : Ctx) (st st' : NeedsSt)
    (h : stageHunger delta ctx st = .ok st') : st'.1.isSick = st.1.isSick := by
  obtain ⟨n, ev, i⟩ := st
  simp only [stageHunger] at h
  split_ifs at h <;>
    first
      | exact Except.noConfusion h
      | (injection h with h; subst h; rfl)

theorem stageEnergy_isSick_eq (delta : ℚ) (ctx : Ctx) (st st' : NeedsSt)
    (h : stageEnergy delta ctx st = .ok st') : st'.1.isSick = st.1.isSick := by
  obtain ⟨n, ev, i⟩ := st
  simp only [stageEnergy] at h
  split_ifs at h <;>
    first
      | exact Except.noConfusion h
      | (injection h with h; subst h; rfl)

/-- When the clamped health update lands at (or below) zero, the health
section exits with the death cause `isSick ? SICKNESS : OLD_AGE`. -/
theorem stageHealth_dead (delta : ℚ) (ctx : Ctx) (n : Needs) (ev : List Event)
    (i : ℕ) (hdead : n.health + healthChange delta ctx n ≤ 0) :
    stageHealth delta ctx (n, ev, i) = .error
      ({ n with
          health := max 0 (min 1 (n.health + healthChange delta ctx n)),
          alive := false,
          deathCause := some (if n.isSick then DeathCause.sickness else DeathCause.oldAge) },
       ⟨false, some (if n.isSick then DeathCause.sickness else DeathCause.oldAge),
         ev ++ [.death (if n.isSick then DeathCause.sickness else DeathCause.oldAge)]⟩,
       i) := by
  simp only [stageHealth]
  rw [if_pos (max_le le_rfl (le_trans (min_le_right 1 _) hdead))]

/-- C8: when an agent survives the aging, hunger, and energy sections of a
tick and its health then reaches `≤ 0` in the health section, the recorded
death cause is `sickness` exactly when the sickness flag is set at that
moment and `old_age` otherwise — the sickness flag (unchanged by the earlier
sections of the same tick) is checked first when both sickness and old age
could explain the same health-depletion death. -/
theorem c8_health_death_cause_precedence (needs : Needs) (delta : ℚ) (ctx : Ctx)
    (mrand : ℕ → ℚ) (i : ℕ) (s1 s2 s3 : NeedsSt)
    (ha : needs.alive = true)
    (h1 : stageAging delta mrand (applyCtxFlags needs ctx, [], i) = .ok s1)
    (h2 : stageHunger delta ctx s1 = .ok s2)
    (h3 : stageEnergy delta ctx s2 = .ok s3)
    (hdead : s3.1.health + healthChange delta ctx s3.1 ≤ 0) :
    (updateNeeds needs delta ctx mrand i).2.1.alive = false ∧
    (updateNeeds needs delta ctx mrand i).2.1.deathCause =
      some (if needs.isSick then DeathCause.sickness else DeathCause.oldAge) := by
  obtain ⟨n3, ev3, i3⟩ := s3
  have hsick : n3.isSick = needs.isSick := by
    rw [stageEnergy_isSick_eq delta ctx s2 (n3, ev3, i3) h3,
        stageHunger_isSick_eq delta ctx s1 s2 h2,
        stageAging_isSick_eq delta mrand _ s1 h1]
    rfl
  simp only [updateNeeds, ha, eq_self_iff_true, not_true, if_false]
  rw [h1]
  dsimp only
  rw [h2]
  dsimp only
  rw [h3]
  dsimp only
  rw [stageHealth_dead delta ctx n3 ev3 i3 hdead]
  dsimp only
  rw [hsick]
  exact ⟨rfl, rfl⟩

/-- C8 (witness): a sick adult (`c8n`, health `0.0055`, sickness flag set)
whose health is depleted exactly by one tick of base + sickness decay dies
with cause `sickness`, not `old_age`. -/
theorem c8_health_death_cause_precedence_witness :
    c8n.alive = true ∧
    stageAging 1 (fun _ => 1) (applyCtxFlags c8n ctx0, [], 0) = .ok c8s1 ∧
    stageHunger 1 ctx0 c8s1 = .ok c8s2 ∧
    stageEnergy 1 ctx0 c8s2 = .ok c8s2 ∧
    c8s2.1.health + healthChange 1 ctx0 c8s2.1 ≤ 0 ∧
    ((updateNeeds c8n 1 ctx0 (fun _ => 1) 0).2.1.alive = false ∧
      (updateNeeds c8n 1 ctx0 (fun _ => 1) 0).2.1.deathCause =
        some (if c8n.isSick then DeathCause.sickness else DeathCause.oldAge)) := by
  have e1 : stageAging 1 (fun _ => 1) (applyCtxFlags c8n ctx0, [], 0) = .ok c8s1 := by
    norm_num [stageAging, applyCtxFlags, c8n, ctx0, c8s1, NEEDS_CONFIG, getLifeStage,
      LIFE_STAGES_BABY, LIFE_STAGES_CHILD, LIFE_STAGES_ADULT, LIFE_STAGES_ELDER]
  have e2 : stageHunger 1 ctx0 c8s1 = .ok c8s2 := by
    norm_num [stageHunger, c8n, ctx0, c8s1, c8s2, NEEDS_CONFIG,
      LIFE_STAGES_ADULT]
  have e3 : stageEnergy 1 ctx0 c8s2 = .ok c8s2 := by
    norm_num [stageEnergy, c8n, ctx0, c8s2, NEEDS_CONFIG, LIFE_STAGES_ADULT]
  have e4 : c8s2.1.health + healthChange 1 ctx0 c8s2.1 ≤ 0 := by
    norm_num [healthChange, c8n, ctx0, c8s2, NEEDS_CONFIG, LIFE_STAGES_ADULT]
  exact ⟨rfl, e1, e2, e3, e4,
    c8_health_death_cause_precedence c8n 1 ctx0 (fun _ => 1) 0 c8s1 c8s2 c8s2
      rfl e1 e2 e3 e4⟩

/-! ## Claim C1 — seed determinism -/

/-- C1 (code bug): the determinism law fails because `updateNeeds` does not
draw its probabilistic branches from the shared seeded stream at all: the
old-age death roll (likewise sickness spread and the childbirth complication,
and the threat/combat rolls elsewhere) comes from the ambient unseeded
`Math.random()`, which is why the seeded state is not even an input of the
embedded `updateNeeds`.  Concretely: the same agent (`c1needs`, age 100), the
same tick length, the same seed state — only the ambient `Math.random`
stream differs (`0` versus `0.99`), and one run records an old-age death
while the other survives.  Only the fishing catch roll uses `seededRandom`. -/
theorem c1_seed_determinism_broken :
    (updateNeeds c1needs 1 ctx0 (fun _ => 0) 0).2.1.alive = false ∧
    (updateNeeds c1needs 1 ctx0 (fun _ => 0) 0).2.1.deathCause = some DeathCause.oldAge ∧
    (updateNeeds c1needs 1 ctx0 (fun _ => 99/100) 0).2.1.alive = true := by
  refine ⟨?_, ?_, ?_⟩ <;>
    norm_num [updateNeeds, applyCtxFlags, stageAging, stageHunger, stageEnergy,
      stageHealth, stageSocial, stageReproduction, stageSickness, stageSicknessSpread,
      stagePregnancy, healthChange, c1needs, ctx0, NEEDS_CONFIG, getLifeStage,
      LIFE_STAGES_BABY, LIFE_STAGES_CHILD, LIFE_STAGES_ADULT, LIFE_STAGES_ELDER]

end IslandSim
